import Mathlib

/-!
Verification of the PTY terminal core of the repository
(`backend/core/pty_session.py`, `backend/core/pty_manager.py`,
`backend/api/terminal.py`, `backend/grpc_server/terminal_service.py`).

The Python classes are shallowly embedded as Lean structures; every method
that mutates session state is translated into a pure function returning the
updated state (plus, where the claims need it, a trace of the externally
visible actions the method performs).  Nondeterministic inputs of the real
system — the spawned process handle, the moment the child process dies, OS
call failures, wall-clock timestamps, freshly generated UUIDs — are passed
in as explicit parameters, resolving the environment's choices.

Output chunks: the pexpect handle is created with `encoding='utf-8'` and
`codec_errors='replace'`, so `read_nonblocking` yields `str` values; the
pump loop stores `chunk.encode('utf-8')` and `get_output_since` joins the
stored byte strings and decodes with `errors='replace'`.  Since each stored
entry is the UTF-8 encoding of a valid string, decoding the concatenation
yields the concatenation of the original strings; the model therefore keeps
the buffer entries as `String` and joins them directly.
-/

namespace PtyCore

/-- Python `str.startswith(pre)`, written over the character lists so that
it evaluates inside the kernel (it agrees with `String.startsWith`). -/
def strStartsWith (s pre : String) : Bool :=
  pre.data.isPrefixOf s.data

/-- The pexpect process handle, as the session code observes it:
`isalive()` and the `exitstatus` attribute (which pexpect documents as
`None` when the child was ended by a signal rather than a normal exit). -/
structure Proc where
  alive : Bool
  exitstatus : Option Int
deriving DecidableEq, Repr

/-- State of `PTYSession` (`backend/core/pty_session.py`).  Timestamps are
abstract `Nat` ticks; `session_id`/`cwd` are the strings chosen at
construction. `running` is the private `_running` flag. -/
structure PTYSession where
  session_id : String
  rows : Nat
  cols : Nat
  cwd : String
  shell : String
  max_output_lines : Nat
  process : Option Proc
  output_buffer : List String
  output_seq : Nat
  created_at : Nat
  last_activity : Nat
  exit_code : Option Int
  running : Bool
deriving DecidableEq, Repr

/-- `PTYSession.__init__`: no process yet, empty bounded buffer, sequence
counter 0, no exit code, not running. -/
def PTYSession.init (session_id : String) (rows cols : Nat) (cwd shell : String)
    (max_output_lines : Nat) (now : Nat) : PTYSession :=
  { session_id := session_id, rows := rows, cols := cols, cwd := cwd, shell := shell
    max_output_lines := max_output_lines
    process := none, output_buffer := [], output_seq := 0
    created_at := now, last_activity := now, exit_code := none, running := false }

/-- `PTYSession.start`: returns immediately if already running, otherwise
spawns the process handle (supplied here by the environment) and sets
`_running`. -/
def start (s : PTYSession) (p : Proc) : PTYSession :=
  if s.running then s else { s with process := some p, running := true }

/-- A freshly created and started session, exactly as `PTYManager.create_session`
produces one (`PTYSession(...)` followed by `await session.start()`). -/
def mkStarted (id : String) (rows cols : Nat) (cwd shell : String)
    (maxLines now : Nat) (p : Proc) : PTYSession :=
  start (PTYSession.init id rows cols cwd shell maxLines now) p

/-- `self.process.isalive()` as the session's loops evaluate it (`False`
when there is no process handle, which in the source would be an attribute
error — only reachable states with a handle call it). -/
def procAlive (s : PTYSession) : Bool :=
  match s.process with
  | some p => p.alive
  | none => false

/-- `PTYSession.is_alive`: `self._running and (self.process is not None and
self.process.isalive())`. -/
def is_alive (s : PTYSession) : Bool :=
  s.running && procAlive s

/-- `collections.deque(maxlen=n).append`: appends on the right and silently
drops the oldest entries once the capacity is exceeded. -/
def dequeAppend (maxlen : Nat) (buf : List String) (x : String) : List String :=
  let b := buf ++ [x]
  if maxlen < b.length then b.drop (b.length - maxlen) else b

/-- `PTYSession.get_output_since(seq)`: clamps the cursor up to
`output_seq - len(output_buffer)`, joins the buffer slice from
`max(0, len(buffer) - (output_seq - seq))`, and returns it together with
the current `output_seq`.  Total — no input raises. -/
def get_output_since (s : PTYSession) (seq : Int) : String × Nat :=
  let seq1 : Int :=
    if seq < (s.output_seq : Int) - (s.output_buffer.length : Int)
    then (s.output_seq : Int) - (s.output_buffer.length : Int) else seq
  let start_idx : Int := max 0 ((s.output_buffer.length : Int) - ((s.output_seq : Int) - seq1))
  (String.join (s.output_buffer.drop start_idx.toNat), s.output_seq)

/-- `get_output_since` with the `self` state threaded explicitly: the method
body reads `output_seq` and `output_buffer` and assigns only to the local
variables `seq`/`start_idx`/`output_bytes`/`output_str`, so the state that
comes out is the state that went in. -/
def get_output_since_st (s : PTYSession) (seq : Int) : (String × Nat) × PTYSession :=
  (get_output_since s seq, s)

/-- The buffer entry at index `i` carries append-time sequence number
`output_seq - len(buffer) + i`; this selects the entries whose sequence
number is at least `cursor` (the claim's description of the read result). -/
def entriesAtOrAfter (s : PTYSession) (cursor : Int) : List String :=
  s.output_buffer.drop (cursor - ((s.output_seq : Int) - (s.output_buffer.length : Int))).toNat

/-- C1: for every session state and every integer cursor, `get_output_since`
returns exactly the concatenation of the buffer entries at or after the
clamped cursor `max(seq, output_seq - len(output_buffer))`, paired with the
current `output_seq`; the function is total (never raises), and any cursor
at or beyond `output_seq` yields the empty string with the current
`output_seq`. -/
theorem get_output_since_correct (s : PTYSession) (seq : Int) :
    get_output_since s seq =
      (String.join (entriesAtOrAfter s
          (max seq ((s.output_seq : Int) - (s.output_buffer.length : Int)))),
        s.output_seq)
    ∧ ((s.output_seq : Int) ≤ seq →
        get_output_since s seq = ("", s.output_seq)) := by
  constructor
  · simp only [get_output_since, entriesAtOrAfter]
    refine Prod.ext ?_ rfl
    simp only
    congr 1
    congr 1
    simp only [max_def]
    split_ifs <;> omega
  · intro h
    simp only [get_output_since]
    have hlen : (0 : Int) ≤ (s.output_buffer.length : Int) := by positivity
    have hcl : ¬ (seq < (s.output_seq : Int) - (s.output_buffer.length : Int)) := by omega
    rw [if_neg hcl]
    refine Prod.ext ?_ rfl
    simp only
    have hidx : s.output_buffer.length ≤
        (max 0 ((s.output_buffer.length : Int) - ((s.output_seq : Int) - seq))).toNat := by
      omega
    rw [List.drop_eq_nil_of_le hidx]
    rfl

/-- C1 witness: a concrete session with three buffered chunks and two
evicted ones; both conjuncts of `get_output_since_correct` are evaluated at
cursor 3 and at the beyond-the-end cursor 7. -/
theorem get_output_since_correct_witness :
    (get_output_since
        { session_id := "w", rows := 24, cols := 80, cwd := "/", shell := "bash"
          max_output_lines := 3, process := some ⟨true, none⟩
          output_buffer := ["c", "d", "e"], output_seq := 5
          created_at := 0, last_activity := 0, exit_code := none, running := true } 3
      = ("de", 5))
    ∧ (get_output_since
        { session_id := "w", rows := 24, cols := 80, cwd := "/", shell := "bash"
          max_output_lines := 3, process := some ⟨true, none⟩
          output_buffer := ["c", "d", "e"], output_seq := 5
          created_at := 0, last_activity := 0, exit_code := none, running := true } 7
      = ("", 5)) := by
  constructor
  · have h := (get_output_since_correct
      { session_id := "w", rows := 24, cols := 80, cwd := "/", shell := "bash"
        max_output_lines := 3, process := some ⟨true, none⟩
        output_buffer := ["c", "d", "e"], output_seq := 5
        created_at := 0, last_activity := 0, exit_code := none, running := true } 3).1
    rw [h]
    decide
  · exact (get_output_since_correct
      { session_id := "w", rows := 24, cols := 80, cwd := "/", shell := "bash"
        max_output_lines := 3, process := some ⟨true, none⟩
        output_buffer := ["c", "d", "e"], output_seq := 5
        created_at := 0, last_activity := 0, exit_code := none, running := true } 7).2
      (by decide)

/-- `PTYSession.write_input(data)`: raises `RuntimeError("Session not
running")` unless `_running` is set and a process handle exists; otherwise
forwards the data to `process.send` (whose possible OS failure is the
`sendOk` environment flag) and updates `last_activity`.  The pair is the
(outcome, resulting state) of the call. -/
def write_input (s : PTYSession) (_data : String) (now : Nat) (sendOk : Bool) :
    Except String Unit × PTYSession :=
  match s.running, s.process with
  | true, some _ =>
      if sendOk then (Except.ok (), { s with last_activity := now })
      else (Except.error "send failed", s)
  | _, _ => (Except.error "Session not running", s)

/-- `PTYSession.resize(rows, cols)`: same liveness guard; then stores the
requested dimensions, calls `process.setwinsize` (OS failure = the `osOk`
environment flag), and only afterwards updates `last_activity`. -/
def resize (s : PTYSession) (r c : Nat) (now : Nat) (osOk : Bool) :
    Except String Unit × PTYSession :=
  match s.running, s.process with
  | true, some _ =>
      let s1 := { s with rows := r, cols := c }
      if osOk then (Except.ok (), { s1 with last_activity := now })
      else (Except.error "setwinsize failed", s1)
  | _, _ => (Except.error "Session not running", s)

/-- Externally visible actions performed by the session's methods, recorded
so the theorems can speak about what a call did (appends, termination
signals, liveness polls, sleeps, assignments to `exit_code`). -/
inductive Act where
  | append (chunk : String)
  | terminate
  | poll (alive : Bool)
  | sleepMs (n : Nat)
  | kill
  | setExit (v : Option Int)
deriving DecidableEq, Repr

/-- Result of the j-th `isalive()` check during `close` (in-loop checks are
j = 0..9, the final pre-kill check is j = 10): the environment's `deadAt`
says from which check onward the process is observed dead. -/
def aliveAt (deadAt : Option Nat) (j : Nat) : Bool :=
  match deadAt with
  | none => true
  | some k => decide (j < k)

/-- The `for _ in range(10)` polling loop of `close`: each iteration checks
`isalive()`, breaks when dead, otherwise sleeps 100 ms and continues. -/
def closePollsFrom (deadAt : Option Nat) : Nat → Nat → List Act
  | 0, _ => []
  | fuel + 1, j =>
      if aliveAt deadAt j then
        Act.poll true :: Act.sleepMs 100 :: closePollsFrom deadAt fuel (j + 1)
      else [Act.poll false]

def closePolls (deadAt : Option Nat) : List Act := closePollsFrom deadAt 10 0

/-- `PTYSession.close()`: clears `_running`, cancels the pump task, and if a
live process handle exists, requests termination, polls `isalive()` up to
ten times with 100 ms sleeps, force-kills (signal 9) if the process survived
all polls, and finally records `self.process.exitstatus if self.process
else -1` into `exit_code`.  `deadAt` resolves when the process is observed
dead; `statusEnd` is the `exitstatus` the handle reports once dead (pexpect
reports `None` for a signal-killed child). -/
def closeFn (s : PTYSession) (deadAt : Option Nat) (statusEnd : Option Int) :
    PTYSession × List Act :=
  let s1 := { s with running := false }
  match s1.process with
  | some p =>
      if p.alive then
        let acts := Act.terminate :: closePolls deadAt
          ++ (if aliveAt deadAt 10 then [Act.kill] else [])
        let s2 := { s1 with process := some ⟨false, statusEnd⟩,
                            exit_code := statusEnd }
        (s2, acts ++ [Act.setExit statusEnd])
      else
        ({ s1 with exit_code := p.exitstatus }, [Act.setExit p.exitstatus])
  | none => ({ s1 with exit_code := some (-1) }, [Act.setExit (some (-1))])

/-- Number of `poll` actions in a trace. -/
def countPolls (l : List Act) : Nat :=
  l.countP (fun a => match a with | Act.poll _ => true | _ => false)

/-- Number of assignments to `exit_code` in a trace. -/
def countWrites (l : List Act) : Nat :=
  l.countP (fun a => match a with | Act.setExit _ => true | _ => false)

lemma closePollsFrom_countPolls (d : Option Nat) (fuel j : Nat) :
    countPolls (closePollsFrom d fuel j) ≤ fuel := by
  induction fuel generalizing j with
  | zero => simp [closePollsFrom, countPolls]
  | succ n ih =>
      simp only [closePollsFrom]
      split
      · simpa [countPolls, List.countP_cons] using
          Nat.add_le_add_right (ih (j + 1)) 1
      · simp [countPolls, List.countP_cons]

lemma closePollsFrom_mem (d : Option Nat) (fuel j : Nat) (a : Act)
    (h : a ∈ closePollsFrom d fuel j) :
    (∃ b, a = Act.poll b) ∨ a = Act.sleepMs 100 := by
  induction fuel generalizing j with
  | zero => simp [closePollsFrom] at h
  | succ n ih =>
      simp only [closePollsFrom] at h
      split at h
      · simp only [List.mem_cons] at h
        rcases h with h | h | h
        · exact Or.inl ⟨true, h⟩
        · exact Or.inr h
        · exact ih (j + 1) h
      · simp only [List.mem_cons, List.not_mem_nil, or_false] at h
        exact Or.inl ⟨false, h⟩

lemma countWrites_closePolls (d : Option Nat) : countWrites (closePolls d) = 0 := by
  rw [countWrites, List.countP_eq_zero]
  intro a ha
  rcases closePollsFrom_mem d 10 0 a ha with ⟨b, hb⟩ | hb <;> subst hb <;> simp

lemma kill_not_mem_closePolls (d : Option Nat) : Act.kill ∉ closePolls d := by
  intro h
  rcases closePollsFrom_mem d 10 0 _ h with ⟨b, hb⟩ | hb <;> simp at hb

lemma closeFn_running_false (s : PTYSession) (d : Option Nat) (st : Option Int) :
    (closeFn s d st).1.running = false := by
  rcases hp : s.process with _ | p
  · simp [closeFn, hp]
  · by_cases hb : p.alive <;> simp [closeFn, hp, hb]

/-- A concrete live session as the registry creates it. -/
def procA : Proc := ⟨true, none⟩

def sessA : PTYSession := mkStarted "alice-1" 24 80 "/" "bash" 10000 0 procA

/-- `sessA` after its `_running` flag has been cleared. -/
def sessStopped : PTYSession := { sessA with running := false }

/-- C6 (amended only by making the session-has-a-handle invariant explicit,
which holds for every started session): `write_input` and `resize` against a
session that is not `RUNNING` always return the "Session not running" error
and leave the state untouched — never a silent no-op; against a `RUNNING`
session (whose handle exists and whose OS calls succeed) they succeed,
update `last_activity`, and `resize` additionally stores the requested
dimensions. -/
theorem input_resize_requires_running (s : PTYSession) (data : String)
    (r c now : Nat) (sendOk osOk : Bool) :
    (s.running = false →
        write_input s data now sendOk = (Except.error "Session not running", s)
        ∧ resize s r c now osOk = (Except.error "Session not running", s))
    ∧ (s.running = true → s.process.isSome = true →
        write_input s data now true = (Except.ok (), { s with last_activity := now })
        ∧ resize s r c now true =
            (Except.ok (), { s with rows := r, cols := c, last_activity := now })) := by
  constructor
  · intro h
    exact ⟨by simp [write_input, h], by simp [resize, h]⟩
  · intro h1 h2
    obtain ⟨p, hp⟩ := Option.isSome_iff_exists.mp h2
    exact ⟨by simp [write_input, h1, hp], by simp [resize, h1, hp]⟩

/-- C6 witness: evaluated on a live session and on a stopped one. -/
theorem input_resize_requires_running_witness :
    write_input sessA "echo hi" 5 true = (Except.ok (), { sessA with last_activity := 5 })
    ∧ resize sessStopped 40 120 5 true = (Except.error "Session not running", sessStopped) :=
  ⟨((input_resize_requires_running sessA "echo hi" 40 120 5 true true).2
      (by decide) (by decide)).1,
   ((input_resize_requires_running sessStopped "echo hi" 40 120 5 true true).1
      (by decide)).2⟩

/-- C10: `resize` stores the requested dimensions before attempting the
OS-level window-size call, so when that call fails the session already
reports the new `rows`/`cols` (all other fields unchanged) while
`last_activity` keeps its old value. -/
theorem resize_partial_update_on_error (s : PTYSession) (r c now : Nat)
    (h1 : s.running = true) (h2 : s.process.isSome = true) :
    resize s r c now false
      = (Except.error "setwinsize failed", { s with rows := r, cols := c })
    ∧ (resize s r c now false).2.last_activity = s.last_activity := by
  obtain ⟨p, hp⟩ := Option.isSome_iff_exists.mp h2
  exact ⟨by simp [resize, h1, hp], by simp [resize, h1, hp]⟩

/-- C10 witness. -/
theorem resize_partial_update_on_error_witness :
    resize sessA 40 120 5 false
      = (Except.error "setwinsize failed", { sessA with rows := 40, cols := 120 }) :=
  (resize_partial_update_on_error sessA 40 120 5 (by decide) (by decide)).1

/-- C7 (amended): `close()` always leaves the session not alive with
`_running` cleared and `exit_code` assigned — the process's `exitstatus`
when a handle exists (which is itself `None` when the child was ended by a
signal, so `exit_code` can remain unset), the sentinel `-1` when the handle
is unavailable; a still-alive process first receives a terminate request,
`isalive()` is polled at most ten times with 100 ms sleeps, a force-kill is
issued exactly when the process survived all polls; and `close` is
idempotent on the session state. -/
theorem close_correct (s : PTYSession) (d d2 : Option Nat) (st st2 : Option Int) :
    is_alive (closeFn s d st).1 = false
    ∧ (closeFn s d st).1.running = false
    ∧ (closeFn s d st).1.exit_code =
        (match s.process with
         | none => some (-1)
         | some p => if p.alive then st else p.exitstatus)
    ∧ countPolls (closeFn s d st).2 ≤ 10
    ∧ (Act.terminate ∈ (closeFn s d st).2 ↔ procAlive s = true)
    ∧ (Act.kill ∈ (closeFn s d st).2 ↔ procAlive s = true ∧ aliveAt d 10 = true)
    ∧ (∀ n, Act.sleepMs n ∈ (closeFn s d st).2 → n = 100)
    ∧ countWrites (closeFn s d st).2 = 1
    ∧ (closeFn (closeFn s d st).1 d2 st2).1 = (closeFn s d st).1 := by
  rcases hp : s.process with _ | p
  · refine ⟨by simp [closeFn, hp, is_alive], by simp [closeFn, hp], by simp [closeFn, hp],
      by simp [closeFn, hp, countPolls], ?_, ?_, by simp [closeFn, hp],
      by simp [closeFn, hp, countWrites], by simp [closeFn, hp]⟩
    · simp [closeFn, hp, procAlive]
    · simp [closeFn, hp, procAlive]
  · by_cases hb : p.alive
    · refine ⟨by simp [closeFn, hp, hb, is_alive], by simp [closeFn, hp, hb],
        by simp [closeFn, hp, hb], ?_, ?_, ?_, ?_, ?_, by simp [closeFn, hp, hb]⟩
      · have h10 := closePollsFrom_countPolls d 10 0
        simp only [countPolls] at h10
        cases haa : aliveAt d 10 <;>
          simp only [countPolls, closeFn, hp, hb, if_pos, haa, closePolls,
            Bool.false_eq_true, if_false, if_true, List.countP_cons, List.countP_append,
            List.countP_nil] <;>
          simp <;> omega
      · simp [closeFn, hp, hb, procAlive]
      · constructor
        · intro h
          refine ⟨by simp [procAlive, hp, hb], ?_⟩
          simp only [closeFn, hp, hb, if_pos, List.mem_append, List.mem_cons] at h
          rcases h with ((h | h) | h) | h
          · exact absurd h (by simp)
          · exact absurd h (kill_not_mem_closePolls d)
          · by_contra hc
            simp only [Bool.not_eq_true] at hc
            rw [hc] at h
            simp at h
          · simp at h
        · rintro ⟨-, h10⟩
          simp [closeFn, hp, hb, h10]
      · intro n hn
        simp only [closeFn, hp, hb, if_pos, List.mem_append, List.mem_cons] at hn
        rcases hn with ((h | h) | h) | h
        · exact absurd h (by simp)
        · rcases closePollsFrom_mem d 10 0 _ h with ⟨b, hbb⟩ | hbb
          · exact absurd hbb (by simp)
          · simp only [Act.sleepMs.injEq] at hbb
            exact hbb
        · split at h <;> simp at h
        · simp at h
      · have h0 := countWrites_closePolls d
        simp only [countWrites] at h0
        cases haa : aliveAt d 10 <;>
          simp only [countWrites, closeFn, hp, hb, if_pos, haa, Bool.false_eq_true,
            if_false, if_true, List.countP_cons, List.countP_append, List.countP_nil] <;>
          simp [h0]
    · simp only [Bool.not_eq_true] at hb
      refine ⟨by simp [closeFn, hp, hb, is_alive], by simp [closeFn, hp, hb],
        by simp [closeFn, hp, hb], by simp [closeFn, hp, hb, countPolls], ?_, ?_,
        by simp [closeFn, hp, hb], by simp [closeFn, hp, hb, countWrites],
        by simp [closeFn, hp, hb]⟩
      · simp [closeFn, hp, hb, procAlive]
      · simp [closeFn, hp, hb, procAlive]

/-- C7 counterexample to the claim as stated: a live session whose process
survives the ten polls is force-killed (signal), pexpect then reports
`exitstatus = None`, and `close` records `exit_code = None` — the session is
closed but `exit_code` is *not* set. -/
theorem close_can_leave_exit_code_unset :
    is_alive sessA = true ∧ (closeFn sessA none none).1.exit_code = none := by
  constructor <;> decide

/-- C7 witness. -/
theorem close_correct_witness :
    (closeFn sessA none none).1.running = false
    ∧ (Act.kill ∈ (closeFn sessA none none).2 ↔
        procAlive sessA = true ∧ aliveAt none 10 = true) :=
  ⟨(close_correct sessA none none none none).2.1,
   (close_correct sessA none none none none).2.2.2.2.2.1⟩

/-- C3: `get_output_since` is read-only — the state it returns is the state
it received, every individual field included, so two consecutive calls with
the same cursor and no intervening append return identical results. -/
theorem get_output_read_only (s : PTYSession) (seq : Int) :
    (get_output_since_st s seq).2 = s
    ∧ (get_output_since_st s seq).2.output_buffer = s.output_buffer
    ∧ (get_output_since_st s seq).2.output_seq = s.output_seq
    ∧ (get_output_since_st s seq).2.last_activity = s.last_activity
    ∧ (get_output_since_st s seq).2.rows = s.rows
    ∧ (get_output_since_st s seq).2.cols = s.cols
    ∧ (get_output_since_st s seq).2.exit_code = s.exit_code
    ∧ (get_output_since_st s seq).2.running = s.running
    ∧ (get_output_since_st (get_output_since_st s seq).2 seq).1
        = (get_output_since_st s seq).1 :=
  ⟨rfl, rfl, rfl, rfl, rfl, rfl, rfl, rfl, rfl⟩

/-- The events that can touch a started session's state, with the
environment's choices resolved inside the event: a successful pump-loop read
(`pumpData`), the pump loop observing process death and running its exit
block (`pumpExit`, lines 84–86), the OS-level death of the child
(`procDies`), caller-issued input/resize, and `close()`. -/
inductive Ev where
  | pumpData (chunk : String) (now : Nat)
  | pumpExit
  | procDies (st : Option Int)
  | input (data : String) (now : Nat) (sendOk : Bool)
  | resizeEv (r c : Nat) (now : Nat) (osOk : Bool)
  | closeEv (deadAt : Option Nat) (statusEnd : Option Int)
deriving DecidableEq, Repr

/-- One event applied to the session, returning the new state and the
externally visible actions performed.  `pumpData` is guarded exactly by the
pump loop's `while self._running and self.process.isalive()` condition plus
its `if output:` non-empty check; `pumpExit` is the loop's exit block, which
records `exit_code` only when a dead process handle exists. -/
def step (s : PTYSession) : Ev → PTYSession × List Act
  | Ev.pumpData chunk now =>
      if s.running && procAlive s && (chunk != "") then
        ({ s with output_buffer := dequeAppend s.max_output_lines s.output_buffer chunk,
                  output_seq := s.output_seq + 1,
                  last_activity := now }, [Act.append chunk])
      else (s, [])
  | Ev.pumpExit =>
      match s.process with
      | some p =>
          if p.alive then (s, [])
          else ({ s with exit_code := p.exitstatus, running := false },
            [Act.setExit p.exitstatus])
      | none => (s, [])
  | Ev.procDies st =>
      match s.process with
      | some p =>
          if p.alive then ({ s with process := some ⟨false, st⟩ }, []) else (s, [])
      | none => (s, [])
  | Ev.input data now sendOk => ((write_input s data now sendOk).2, [])
  | Ev.resizeEv r c now osOk => ((resize s r c now osOk).2, [])
  | Ev.closeEv d st => closeFn s d st

/-- A whole trace of events, accumulating the performed actions. -/
def run (s : PTYSession) : List Ev → PTYSession × List Act
  | [] => (s, [])
  | e :: rest =>
      ((run (step s e).1 rest).1, (step s e).2 ++ (run (step s e).1 rest).2)

/-- Number of buffer appends in a trace. -/
def countAppends (l : List Act) : Nat :=
  l.countP (fun a => match a with | Act.append _ => true | _ => false)

lemma countAppends_closePolls (d : Option Nat) : countAppends (closePolls d) = 0 := by
  rw [countAppends, List.countP_eq_zero]
  intro a ha
  rcases closePollsFrom_mem d 10 0 a ha with ⟨b, hb⟩ | hb <;> subst hb <;> simp

lemma closeFn_fst_output_seq (s : PTYSession) (d : Option Nat) (st : Option Int) :
    (closeFn s d st).1.output_seq = s.output_seq := by
  rcases hp : s.process with _ | p
  · simp [closeFn, hp]
  · by_cases hb : p.alive <;> simp [closeFn, hp, hb]

lemma countAppends_closeFn (s : PTYSession) (d : Option Nat) (st : Option Int) :
    countAppends (closeFn s d st).2 = 0 := by
  have h0 := countAppends_closePolls d
  simp only [countAppends] at h0 ⊢
  rcases hp : s.process with _ | p
  · simp [closeFn, hp]
  · by_cases hb : p.alive
    · cases haa : aliveAt d 10 <;>
        simp [closeFn, hp, hb, haa, List.countP_cons, List.countP_append, h0]
    · simp [closeFn, hp, hb]

lemma write_input_frame (s : PTYSession) (data : String) (now : Nat) (k : Bool) :
    (write_input s data now k).2 = s
    ∨ (write_input s data now k).2 = { s with last_activity := now } := by
  unfold write_input
  cases hr : s.running <;> cases hpp : s.process <;> simp
  split <;> simp

lemma resize_frame (s : PTYSession) (r c now : Nat) (k : Bool) :
    (resize s r c now k).2 = s
    ∨ (resize s r c now k).2 = { s with rows := r, cols := c }
    ∨ (resize s r c now k).2 = { s with rows := r, cols := c, last_activity := now } := by
  unfold resize
  cases hr : s.running <;> cases hpp : s.process <;> simp
  split <;> simp

lemma step_output_seq (s : PTYSession) (e : Ev) :
    (step s e).1.output_seq = s.output_seq + countAppends (step s e).2 := by
  cases e with
  | pumpData chunk now =>
      simp only [step]
      split <;> simp [countAppends]
  | pumpExit =>
      simp only [step]
      rcases hp : s.process with _ | p
      · simp [hp, countAppends]
      · by_cases hb : p.alive <;> simp [hp, hb, countAppends]
  | procDies st =>
      simp only [step]
      rcases hp : s.process with _ | p
      · simp [hp, countAppends]
      · by_cases hb : p.alive <;> simp [hp, hb, countAppends]
  | input data now sendOk =>
      rcases write_input_frame s data now sendOk with h | h <;>
        simp [step, h, countAppends]
  | resizeEv r c now osOk =>
      rcases resize_frame s r c now osOk with h | h | h <;>
        simp [step, h, countAppends]
  | closeEv d st =>
      simp [step, closeFn_fst_output_seq, countAppends_closeFn]

lemma run_output_seq (evs : List Ev) (s : PTYSession) :
    (run s evs).1.output_seq = s.output_seq + countAppends (run s evs).2 := by
  induction evs generalizing s with
  | nil => simp [run, countAppends]
  | cons e rest ih =>
      have h1 := step_output_seq s e
      have h2 := ih (step s e).1
      simp only [run, countAppends, List.countP_append] at h1 h2 ⊢
      omega

lemma step_no_append (s : PTYSession) (e : Ev)
    (h : ∀ chunk now, e ≠ Ev.pumpData chunk now) :
    countAppends (step s e).2 = 0 := by
  have := step_output_seq s e
  cases e with
  | pumpData chunk now => exact absurd rfl (h chunk now)
  | pumpExit =>
      simp only [step]
      rcases hp : s.process with _ | p
      · simp [hp, countAppends]
      · by_cases hb : p.alive <;> simp [hp, hb, countAppends]
  | procDies st =>
      simp only [step]
      rcases hp : s.process with _ | p
      · simp [hp, countAppends]
      · by_cases hb : p.alive <;> simp [hp, hb, countAppends]
  | input data now sendOk => simp [step, countAppends]
  | resizeEv r c now osOk => simp [step, countAppends]
  | closeEv d st => exact countAppends_closeFn s d st

/-- C2: for a freshly created-and-started session, `output_seq` starts at 0
and after any event trace equals exactly the number of chunks appended to
the buffer during that trace; each step increases `output_seq` by exactly
the number of appends it performs (so it never decreases), and only
pump-loop read events (`pumpData`) ever append. -/
theorem output_seq_counts_appends (id : String) (rows cols : Nat)
    (cwd shell : String) (maxLines now : Nat) (p : Proc) (evs : List Ev)
    (s : PTYSession) (e : Ev) :
    (mkStarted id rows cols cwd shell maxLines now p).output_seq = 0
    ∧ (run (mkStarted id rows cols cwd shell maxLines now p) evs).1.output_seq
        = countAppends (run (mkStarted id rows cols cwd shell maxLines now p) evs).2
    ∧ (step s e).1.output_seq = s.output_seq + countAppends (step s e).2
    ∧ s.output_seq ≤ (step s e).1.output_seq
    ∧ ((∀ chunk n, e ≠ Ev.pumpData chunk n) → countAppends (step s e).2 = 0) := by
  refine ⟨rfl, ?_, step_output_seq s e, ?_, step_no_append s e⟩
  · have h := run_output_seq evs (mkStarted id rows cols cwd shell maxLines now p)
    have h0 : (mkStarted id rows cols cwd shell maxLines now p).output_seq = 0 := rfl
    omega
  · have h := step_output_seq s e
    omega

/-- C2 witness: a trace with two reads and one input event yields
`output_seq = 2` and exactly two append actions. -/
theorem output_seq_counts_appends_witness :
    (run (mkStarted "alice-1" 24 80 "/" "bash" 10000 0 procA)
        [Ev.pumpData "hi" 1, Ev.input "x" 2 true, Ev.pumpData "yo" 3]).1.output_seq
      = countAppends (run (mkStarted "alice-1" 24 80 "/" "bash" 10000 0 procA)
        [Ev.pumpData "hi" 1, Ev.input "x" 2 true, Ev.pumpData "yo" 3]).2
    ∧ countAppends (run (mkStarted "alice-1" 24 80 "/" "bash" 10000 0 procA)
        [Ev.pumpData "hi" 1, Ev.input "x" 2 true, Ev.pumpData "yo" 3]).2 = 2 :=
  ⟨(output_seq_counts_appends "alice-1" 24 80 "/" "bash" 10000 0 procA
      [Ev.pumpData "hi" 1, Ev.input "x" 2 true, Ev.pumpData "yo" 3]
      sessA Ev.pumpExit).2.1,
   by decide⟩

/-- The pump-loop/`close` consistency invariant behind `exit_code`: whenever
`exit_code` holds a value, the process (if any) is already dead and the
stored value is exactly what the handle reports (`-1` when no handle
exists), so re-running the recording assignments cannot change it. -/
def exitConsistent (s : PTYSession) : Prop :=
  (s.exit_code ≠ none → procAlive s = false)
  ∧ (∀ p, s.process = some p → s.exit_code ≠ none → s.exit_code = p.exitstatus)
  ∧ (s.process = none → s.exit_code ≠ none → s.exit_code = some (-1))

/-- The three facts `step_exitConsistent` establishes for the post-state of
one event. -/
def exitTriple (s t : PTYSession) : Prop :=
  exitConsistent t
  ∧ (∀ v, s.exit_code = some v → t.exit_code = some v)
  ∧ (t.running = true → s.running = true ∧ t.exit_code = s.exit_code)

lemma exitTriple_of_eq (s : PTYSession) (hinv : exitConsistent s) :
    exitTriple s s :=
  ⟨hinv, fun _ hv => hv, fun h => ⟨h, rfl⟩⟩

lemma procAlive_congr {s t : PTYSession} (h : t.process = s.process) :
    procAlive t = procAlive s := by
  simp [procAlive, h]

lemma exitTriple_of_fields (s t : PTYSession) (hinv : exitConsistent s)
    (hex : t.exit_code = s.exit_code) (hpr : t.process = s.process)
    (hrn : t.running = s.running) : exitTriple s t := by
  obtain ⟨h1, h2, h3⟩ := hinv
  refine ⟨⟨?_, ?_, ?_⟩, ?_, ?_⟩
  · intro hc
    rw [procAlive_congr hpr]
    exact h1 (by rwa [hex] at hc)
  · intro q hq hc
    rw [hex]
    exact h2 q (by rwa [hpr] at hq) (by rwa [hex] at hc)
  · intro hq hc
    rw [hex]
    exact h3 (by rwa [hpr] at hq) (by rwa [hex] at hc)
  · intro v hv
    rw [hex]
    exact hv
  · intro ht
    rw [hrn] at ht
    exact ⟨ht, hex⟩

lemma step_exitConsistent (s : PTYSession) (e : Ev) (hinv : exitConsistent s) :
    exitTriple s (step s e).1 := by
  obtain ⟨h1, h2, h3⟩ := hinv
  cases e with
  | pumpData chunk now =>
      by_cases hg : (s.running && procAlive s && (chunk != "")) = true
      · have hstep : step s (Ev.pumpData chunk now) =
            ({ s with output_buffer := dequeAppend s.max_output_lines s.output_buffer chunk,
                      output_seq := s.output_seq + 1,
                      last_activity := now }, [Act.append chunk]) := by
          simp [step, hg]
        rw [hstep]
        exact exitTriple_of_fields s _ ⟨h1, h2, h3⟩ rfl rfl rfl
      · have hstep : step s (Ev.pumpData chunk now) = (s, []) := by
          simp only [step, if_neg hg]
        rw [hstep]
        exact exitTriple_of_eq s ⟨h1, h2, h3⟩
  | pumpExit =>
      rcases hp : s.process with _ | p
      · have hstep : step s Ev.pumpExit = (s, []) := by simp [step, hp]
        rw [hstep]
        exact exitTriple_of_eq s ⟨h1, h2, h3⟩
      · by_cases hb : p.alive
        · have hstep : step s Ev.pumpExit = (s, []) := by simp [step, hp, hb]
          rw [hstep]
          exact exitTriple_of_eq s ⟨h1, h2, h3⟩
        · simp only [Bool.not_eq_true] at hb
          have hstep : step s Ev.pumpExit =
              ({ s with exit_code := p.exitstatus, running := false },
                [Act.setExit p.exitstatus]) := by
            simp [step, hp, hb]
          rw [hstep]
          refine ⟨⟨?_, ?_, ?_⟩, ?_, ?_⟩
          · intro _
            show procAlive { s with exit_code := p.exitstatus, running := false } = false
            rw [procAlive_congr rfl]
            simpa [procAlive, hp] using hb
          · intro q hq _
            show p.exitstatus = q.exitstatus
            have hq2 : s.process = some q := hq
            rw [hp] at hq2
            injection hq2 with h
            rw [← h]
          · intro hq
            have hq2 : s.process = none := hq
            rw [hp] at hq2
            exact Option.noConfusion hq2
          · intro v hv
            have h := h2 p hp (by simp [hv])
            show p.exitstatus = some v
            rw [← h]
            exact hv
          · intro h
            exact Bool.noConfusion (show false = true from h)
  | procDies st =>
      rcases hp : s.process with _ | p
      · have hstep : step s (Ev.procDies st) = (s, []) := by simp [step, hp]
        rw [hstep]
        exact exitTriple_of_eq s ⟨h1, h2, h3⟩
      · by_cases hb : p.alive
        · have hnone : s.exit_code = none := by
            by_contra hc
            have h := h1 hc
            simp only [procAlive, hp] at h
            rw [hb] at h
            exact Bool.noConfusion h
          have hstep : step s (Ev.procDies st) =
              ({ s with process := some ⟨false, st⟩ }, []) := by
            simp [step, hp, hb]
          rw [hstep]
          refine ⟨⟨?_, ?_, ?_⟩, ?_, ?_⟩
          · intro hc
            have hc2 : s.exit_code ≠ none := hc
            exact absurd hnone hc2
          · intro q hq hc
            have hc2 : s.exit_code ≠ none := hc
            exact absurd hnone hc2
          · intro hq _
            exact Option.noConfusion (show some (Proc.mk false st) = none from hq)
          · intro v hv
            rw [hnone] at hv
            exact Option.noConfusion hv
          · intro h
            exact ⟨show s.running = true from h, rfl⟩
        · have hstep : step s (Ev.procDies st) = (s, []) := by simp [step, hp, hb]
          rw [hstep]
          exact exitTriple_of_eq s ⟨h1, h2, h3⟩
  | input data now sendOk =>
      have hstep : step s (Ev.input data now sendOk) = ((write_input s data now sendOk).2, []) := rfl
      rw [hstep]
      rcases write_input_frame s data now sendOk with h | h <;> rw [h]
      · exact exitTriple_of_eq s ⟨h1, h2, h3⟩
      · exact exitTriple_of_fields s _ ⟨h1, h2, h3⟩ rfl rfl rfl
  | resizeEv r c now osOk =>
      have hstep : step s (Ev.resizeEv r c now osOk) = ((resize s r c now osOk).2, []) := rfl
      rw [hstep]
      rcases resize_frame s r c now osOk with h | h | h <;> rw [h]
      · exact exitTriple_of_eq s ⟨h1, h2, h3⟩
      · exact exitTriple_of_fields s _ ⟨h1, h2, h3⟩ rfl rfl rfl
      · exact exitTriple_of_fields s _ ⟨h1, h2, h3⟩ rfl rfl rfl
  | closeEv d st =>
      rcases hp : s.process with _ | p
      · have hstep : step s (Ev.closeEv d st) =
            ({ s with running := false, exit_code := some (-1) },
              [Act.setExit (some (-1))]) := by
          simp [step, closeFn, hp]
        rw [hstep]
        refine ⟨⟨?_, ?_, ?_⟩, ?_, ?_⟩
        · intro _
          show procAlive { s with running := false, exit_code := some (-1) } = false
          rw [procAlive_congr rfl]
          simp [procAlive, hp]
        · intro q hq _
          have hq2 : s.process = some q := hq
          rw [hp] at hq2
          exact Option.noConfusion hq2
        · intro _ _
          rfl
        · intro v hv
          have h := h3 hp (by simp [hv])
          show some (-1) = some v
          rw [← h]
          exact hv
        · intro h
          exact Bool.noConfusion (show false = true from h)
      · by_cases hb : p.alive
        · have hnone : s.exit_code = none := by
            by_contra hc
            have h := h1 hc
            simp only [procAlive, hp] at h
            rw [hb] at h
            exact Bool.noConfusion h
          have hstep : step s (Ev.closeEv d st) =
              ({ s with running := false, process := some ⟨false, st⟩, exit_code := st },
                (Act.terminate :: closePolls d
                  ++ (if aliveAt d 10 then [Act.kill] else [])) ++ [Act.setExit st]) := by
            simp [step, closeFn, hp, hb]
          rw [hstep]
          refine ⟨⟨?_, ?_, ?_⟩, ?_, ?_⟩
          · intro _
            rfl
          · intro q hq _
            show st = q.exitstatus
            injection (show some (Proc.mk false st) = some q from hq) with h
            rw [← h]
          · intro hq
            exact Option.noConfusion (show some (Proc.mk false st) = none from hq)
          · intro v hv
            rw [hnone] at hv
            exact Option.noConfusion hv
          · intro h
            exact Bool.noConfusion (show false = true from h)
        · simp only [Bool.not_eq_true] at hb
          have hstep : step s (Ev.closeEv d st) =
              ({ s with running := false, exit_code := p.exitstatus },
                [Act.setExit p.exitstatus]) := by
            simp [step, closeFn, hp, hb]
          rw [hstep]
          refine ⟨⟨?_, ?_, ?_⟩, ?_, ?_⟩
          · intro _
            show procAlive { s with running := false, exit_code := p.exitstatus } = false
            rw [procAlive_congr rfl]
            simpa [procAlive, hp] using hb
          · intro q hq _
            show p.exitstatus = q.exitstatus
            have hq2 : s.process = some q := hq
            rw [hp] at hq2
            injection hq2 with h
            rw [← h]
          · intro hq
            have hq2 : s.process = none := hq
            rw [hp] at hq2
            exact Option.noConfusion hq2
          · intro v hv
            have h := h2 p hp (by simp [hv])
            show p.exitstatus = some v
            rw [← h]
            exact hv
          · intro h
            exact Bool.noConfusion (show false = true from h)

lemma run_exitConsistent (evs : List Ev) (s : PTYSession) (hinv : exitConsistent s) :
    exitTriple s (run s evs).1 := by
  induction evs generalizing s with
  | nil => exact exitTriple_of_eq s hinv
  | cons e rest ih =>
      obtain ⟨hc1, hc2, hc3⟩ := step_exitConsistent s e hinv
      obtain ⟨hr1, hr2, hr3⟩ := ih (step s e).1 hc1
      refine ⟨hr1, ?_, ?_⟩
      · intro v hv
        exact hr2 v (hc2 v hv)
      · intro hrun
        have hrun2 : (run (step s e).1 rest).1.running = true := hrun
        obtain ⟨ha, hb⟩ := hr3 hrun2
        obtain ⟨ha2, hb2⟩ := hc3 ha
        refine ⟨ha2, ?_⟩
        show (run (step s e).1 rest).1.exit_code = s.exit_code
        rw [hb, hb2]

lemma mkStarted_exitConsistent (id : String) (rows cols : Nat) (cwd shell : String)
    (maxLines now : Nat) (p : Proc) :
    exitConsistent (mkStarted id rows cols cwd shell maxLines now p) := by
  have hex : (mkStarted id rows cols cwd shell maxLines now p).exit_code = none := by
    simp [mkStarted, start, PTYSession.init]
  exact ⟨fun h => absurd hex h, fun q hq h => absurd hex h, fun hq h => absurd hex h⟩

/-- C8 (amended): for every started session and every event trace,
`exit_code` is `None` as long as the session is still `RUNNING`, and once it
holds a value `v` no subsequent operation changes that value — but the
recording assignment itself is re-executed by later `close()` calls (see the
counterexample), so "written exactly once" does not hold literally. -/
theorem exit_code_write_stability (id : String) (rows cols : Nat)
    (cwd shell : String) (maxLines now : Nat) (p : Proc)
    (evs evs2 : List Ev) (v : Int) :
    ((run (mkStarted id rows cols cwd shell maxLines now p) evs).1.running = true →
      (run (mkStarted id rows cols cwd shell maxLines now p) evs).1.exit_code = none)
    ∧ ((run (mkStarted id rows cols cwd shell maxLines now p) evs).1.exit_code = some v →
      (run (run (mkStarted id rows cols cwd shell maxLines now p) evs).1 evs2).1.exit_code
        = some v) := by
  have h0 := mkStarted_exitConsistent id rows cols cwd shell maxLines now p
  obtain ⟨h1, h2, h3⟩ := run_exitConsistent evs _ h0
  constructor
  · intro hrun
    have hex : (mkStarted id rows cols cwd shell maxLines now p).exit_code = none := by
      simp [mkStarted, start, PTYSession.init]
    rw [(h3 hrun).2, hex]
  · intro hv
    exact (run_exitConsistent evs2 _ h1).2.1 v hv

/-- C8 counterexample to the claim as stated: after the pump loop has
recorded the exit status (trace prefix `procDies`, `pumpExit`), a subsequent
`close()` re-executes the `exit_code` assignment — the trace contains two
writes to `exit_code`, not one. -/
theorem exit_code_double_write :
    (run sessA [Ev.procDies (some 0), Ev.pumpExit]).1.exit_code = some 0
    ∧ countWrites
        (run sessA [Ev.procDies (some 0), Ev.pumpExit, Ev.closeEv none none]).2 = 2 := by
  constructor <;> decide

/-- C8 witness. -/
theorem exit_code_write_stability_witness :
    (run (run (mkStarted "alice-1" 24 80 "/" "bash" 10000 0 procA)
        [Ev.closeEv none (some 7)]).1 [Ev.closeEv none none]).1.exit_code = some 7 :=
  (exit_code_write_stability "alice-1" 24 80 "/" "bash" 10000 0 procA
      [Ev.closeEv none (some 7)] [Ev.closeEv none none] 7).2 (by decide)

/-- State of `PTYManager` (`backend/core/pty_manager.py`): the session
index (a Python dict, modelled as an insertion-ordered association list
with unique keys) plus the two configured limits. -/
structure PTYManager where
  sessions : List (String × PTYSession)
  session_timeout_minutes : Nat
  max_sessions_per_user : Nat
deriving DecidableEq, Repr

/-- Python `dict.__setitem__`: replaces in place if the key exists,
otherwise appends at the end. -/
def dictInsert (l : List (String × PTYSession)) (k : String) (v : PTYSession) :
    List (String × PTYSession) :=
  if l.any (fun q => q.1 == k) then
    l.map (fun q => if q.1 == k then (k, v) else q)
  else l ++ [(k, v)]

/-- The capacity guard of `PTYManager.create_session`: Python runs it only
`if user_id:` — skipped both for `None` and for the empty string — and then
counts the registered sessions whose `session_id` starts with `user_id`,
comparing against `max_sessions_per_user`. -/
def callerBlocked (m : PTYManager) (user_id : Option String) : Bool :=
  match user_id with
  | some uid =>
      if uid = "" then false
      else decide (m.max_sessions_per_user ≤
        (m.sessions.filter (fun q => strStartsWith q.2.session_id uid)).length)
  | none => false

/-- `PTYManager.create_session`: raises the limit error before anything is
spawned when the caller guard trips; otherwise constructs a `PTYSession`
(fresh uuid `newId`, default `max_output_lines`), starts it, and indexes it
under `session.session_id`. -/
def createSession (m : PTYManager) (rows cols : Nat) (cwd shell : String)
    (user_id : Option String) (newId : String) (now : Nat) (p : Proc) :
    Except String PTYSession × PTYManager :=
  if callerBlocked m user_id then
    (Except.error ("Maximum sessions per user (" ++ toString m.max_sessions_per_user
      ++ ") exceeded"), m)
  else
    let sess := mkStarted newId rows cols cwd shell 10000 now p
    (Except.ok sess, { m with sessions := dictInsert m.sessions sess.session_id sess })

/-- `PTYManager.close_session`: `self.sessions.pop(session_id, None)`; when
a session was indexed it is removed and its `close()` is called (the closed
session is returned here so the theorems can inspect it), else `False` with
the registry untouched. -/
def closeSession (m : PTYManager) (sid : String) (deadAt : Option Nat)
    (statusEnd : Option Int) : Bool × PTYManager × Option PTYSession :=
  match m.sessions.lookup sid with
  | some s =>
      (true, { m with sessions := m.sessions.eraseP (fun q => q.1 == sid) },
        some (closeFn s deadAt statusEnd).1)
  | none => (false, m, none)

/-- The number of the caller's *live* sessions in the registry (ownership by
the id-prefix convention), as the claim counts them. -/
def liveCountForCaller (m : PTYManager) (uid : String) : Nat :=
  (m.sessions.filter (fun q => strStartsWith q.2.session_id uid && is_alive q.2)).length

lemma length_filter_and_le {α : Type} (l : List α) (p q : α → Bool) :
    (l.filter (fun x => p x && q x)).length ≤ (l.filter p).length := by
  induction l with
  | nil => simp
  | cons a t ih =>
      simp only [List.filter_cons]
      by_cases hpa : p a = true <;> by_cases hqa : q a = true <;>
        simp [hpa, hqa] <;> omega

/-- C5 (amended: the caller identity must be non-empty, see the
counterexample): when a non-empty caller identity already owns at least
`max_sessions_per_user` live sessions in the registry, `create_session`
fails with the resource-limit error, no session is spawned, and the session
map is returned unchanged. -/
theorem create_session_limit (m : PTYManager) (uid : String) (rows cols : Nat)
    (cwd shell : String) (newId : String) (now : Nat) (p : Proc)
    (hne : uid ≠ "") (hcap : m.max_sessions_per_user ≤ liveCountForCaller m uid) :
    createSession m rows cols cwd shell (some uid) newId now p
      = (Except.error ("Maximum sessions per user ("
          ++ toString m.max_sessions_per_user ++ ") exceeded"), m) := by
  have hmono := length_filter_and_le m.sessions
    (fun q => strStartsWith q.2.session_id uid) (fun q => is_alive q.2)
  rw [liveCountForCaller] at hcap
  have hbl : callerBlocked m (some uid) = true := by
    simp only [callerBlocked]
    rw [if_neg hne]
    exact decide_eq_true (le_trans hcap hmono)
  rw [createSession, if_pos hbl]

/-- Registry with one live session owned (by the prefix convention) by
caller "alice", and a per-caller cap of 1. -/
def mgrA : PTYManager :=
  { sessions := [("alice-1", sessA)], session_timeout_minutes := 30
    max_sessions_per_user := 1 }

/-- C5 counterexample to the claim as stated: the empty caller identity ""
owns (prefix-matches) every session, so with cap 1 and one live session its
live count meets the cap — yet Python's `if user_id:` treats "" as absent,
the guard is skipped, the call succeeds and the session map grows. -/
theorem create_session_empty_caller_bypasses_limit :
    mgrA.max_sessions_per_user ≤ liveCountForCaller mgrA ""
    ∧ (createSession mgrA 24 80 "/" "bash" (some "") "y" 0 procA).1
        = Except.ok (mkStarted "y" 24 80 "/" "bash" 10000 0 procA)
    ∧ (createSession mgrA 24 80 "/" "bash" (some "") "y" 0 procA).2.sessions.length = 2 := by
  refine ⟨by decide, rfl, by decide⟩

/-- C5 witness. -/
theorem create_session_limit_witness :
    createSession mgrA 24 80 "/" "bash" (some "alice") "z" 1 procA
      = (Except.error ("Maximum sessions per user ("
          ++ toString mgrA.max_sessions_per_user ++ ") exceeded"), mgrA) :=
  create_session_limit mgrA "alice" 24 80 "/" "bash" "z" 1 procA
    (by decide) (by decide)

lemma lookup_none_of_not_mem_keys (l : List (String × PTYSession)) (sid : String)
    (h : sid ∉ l.map Prod.fst) : l.lookup sid = none := by
  induction l with
  | nil => rfl
  | cons a t ih =>
      obtain ⟨k, v⟩ := a
      simp only [List.map_cons, List.mem_cons] at h
      push_neg at h
      rw [List.lookup_cons]
      have hk : (sid == k) = false := by
        rw [beq_eq_false_iff_ne]
        exact h.1
      rw [hk]
      exact ih h.2

lemma lookup_eraseP_self (l : List (String × PTYSession)) (sid : String)
    (hnd : (l.map Prod.fst).Nodup) :
    (l.eraseP (fun q => q.1 == sid)).lookup sid = none := by
  induction l with
  | nil => rfl
  | cons a t ih =>
      obtain ⟨k, v⟩ := a
      simp only [List.map_cons, List.nodup_cons] at hnd
      by_cases hk : k = sid
      · rw [List.eraseP_cons_of_pos (by simp [hk])]
        exact lookup_none_of_not_mem_keys t sid (hk ▸ hnd.1)
      · rw [List.eraseP_cons_of_neg (by simp [hk])]
        rw [List.lookup_cons]
        have hbk : (sid == k) = false := by
          rw [beq_eq_false_iff_ne]
          exact fun hh => hk hh.symm
        rw [hbk]
        exact ih hnd.2

/-- C9: when the id is indexed, `close_session` removes it and calls the
session's `close()` (whose result is no longer alive), returning `True`;
for an unknown id it returns `False` with the registry unchanged and raises
nothing (the model is a total function); and retrying after a successful
close (with unique keys, as a Python dict guarantees) again returns `False`
rather than raising. -/
theorem close_session_registry (m : PTYManager) (sid : String)
    (d d2 : Option Nat) (st st2 : Option Int) :
    (∀ s, m.sessions.lookup sid = some s →
        closeSession m sid d st
          = (true, { m with sessions := m.sessions.eraseP (fun q => q.1 == sid) },
              some (closeFn s d st).1)
        ∧ is_alive (closeFn s d st).1 = false)
    ∧ (m.sessions.lookup sid = none → closeSession m sid d st = (false, m, none))
    ∧ ((m.sessions.map Prod.fst).Nodup →
        (closeSession (closeSession m sid d st).2.1 sid d2 st2).1 = false) := by
  refine ⟨?_, ?_, ?_⟩
  · intro s hs
    constructor
    · simp [closeSession, hs]
    · rw [is_alive, closeFn_running_false]
      rfl
  · intro h
    simp [closeSession, h]
  · intro hnd
    cases hl : m.sessions.lookup sid with
    | none => simp [closeSession, hl]
    | some s => simp [closeSession, hl, lookup_eraseP_self m.sessions sid hnd]

/-- C9 witness: closing the one indexed session succeeds; an unknown id and
an immediate retry return `False`. -/
theorem close_session_registry_witness :
    closeSession mgrA "alice-1" none none
      = (true, { mgrA with sessions := mgrA.sessions.eraseP (fun q => q.1 == "alice-1") },
          some (closeFn sessA none none).1)
    ∧ closeSession mgrA "bob" none none = (false, mgrA, none)
    ∧ (closeSession (closeSession mgrA "alice-1" none none).2.1 "alice-1" none none).1
        = false :=
  ⟨((close_session_registry mgrA "alice-1" none none none none).1 sessA (by decide)).1,
   (close_session_registry mgrA "bob" none none none none).2.1 (by decide),
   (close_session_registry mgrA "alice-1" none none none none).2.2 (by decide)⟩

/-- One SSE event of `stream_session_output.event_generator`
(`backend/api/terminal.py`): the JSON payload `{"output", "seq",
"exit_code"}`.  The final event is the one carrying an empty `output` (the
in-loop events are emitted only for non-empty reads). -/
structure SSEEvent where
  output : String
  seq : Int
  exit_code : Option Int
deriving DecidableEq, Repr

/-- One outbound frame of `TerminalService._stream_output`
(`backend/grpc_server/terminal_service.py`). -/
inductive GrpcMsg where
  | output (data : String) (seq : Nat)
  | errorMsg (message : String)
  | exit (exit_code : Int)
deriving DecidableEq, Repr

/-- The SSE generator: each loop iteration observes one snapshot of the
session; `while session.is_alive()` reads since the cursor, emits an event
only when the read was non-empty (advancing the cursor), and after the loop
yields one final event with the current cursor and `exit_code`.  An
exhausted snapshot list models the client disconnecting. -/
def sseLoop : List PTYSession → Int → List SSEEvent
  | [], _ => []
  | s :: rest, seq =>
      if is_alive s then
        if (get_output_since s seq).1 != "" then
          { output := (get_output_since s seq).1, seq := ((get_output_since s seq).2 : Int)
            exit_code := s.exit_code } :: sseLoop rest ((get_output_since s seq).2 : Int)
        else sseLoop rest seq
      else [{ output := "", seq := seq, exit_code := s.exit_code }]

/-- The gRPC output side: `while session.is_alive() and not
context.cancelled()` with the same non-empty-read rule, and after the loop
an exit frame only `if session.exit_code is not None`.  Each snapshot
carries the session state and the cancellation flag observed then. -/
def grpcLoop : List (PTYSession × Bool) → Int → List GrpcMsg
  | [], _ => []
  | (s, cancelled) :: rest, seq =>
      if is_alive s && !cancelled then
        if (get_output_since s seq).1 != "" then
          GrpcMsg.output (get_output_since s seq).1 (get_output_since s seq).2
            :: grpcLoop rest ((get_output_since s seq).2 : Int)
        else grpcLoop rest seq
      else
        match s.exit_code with
        | some e => [GrpcMsg.exit e]
        | none => []

/-- The claim's "one output event per non-empty read result": the SSE
events produced while the observed snapshots are alive. -/
def sseOutEvents : List PTYSession → Int → List SSEEvent
  | [], _ => []
  | s :: rest, seq =>
      if (get_output_since s seq).1 != "" then
        { output := (get_output_since s seq).1, seq := ((get_output_since s seq).2 : Int)
          exit_code := s.exit_code } :: sseOutEvents rest ((get_output_since s seq).2 : Int)
      else sseOutEvents rest seq

/-- Same reads, as gRPC output frames. -/
def grpcOutEvents : List PTYSession → Int → List GrpcMsg
  | [], _ => []
  | s :: rest, seq =>
      if (get_output_since s seq).1 != "" then
        GrpcMsg.output (get_output_since s seq).1 (get_output_since s seq).2
          :: grpcOutEvents rest ((get_output_since s seq).2 : Int)
      else grpcOutEvents rest seq

/-- The cursor value after draining the given snapshots. -/
def cursorAfter : List PTYSession → Int → Int
  | [], seq => seq
  | s :: rest, seq =>
      if (get_output_since s seq).1 != "" then cursorAfter rest ((get_output_since s seq).2 : Int)
      else cursorAfter rest seq

/-- Number of exit frames in a gRPC frame list. -/
def countExitMsgs (l : List GrpcMsg) : Nat :=
  l.countP (fun msg => match msg with | GrpcMsg.exit _ => true | _ => false)

/-- Number of terminal (empty-output) events in an SSE event list. -/
def countTerminalSSE (l : List SSEEvent) : Nat :=
  l.countP (fun ev => ev.output == "")

lemma sseLoop_split : ∀ (alive : List PTYSession), (∀ s ∈ alive, is_alive s = true) →
    ∀ (deadS : PTYSession) (rest : List PTYSession) (seq : Int), is_alive deadS = false →
    sseLoop (alive ++ deadS :: rest) seq
      = sseOutEvents alive seq
        ++ [{ output := "", seq := cursorAfter alive seq, exit_code := deadS.exit_code }] := by
  intro alive
  induction alive with
  | nil =>
      intro _ deadS rest seq hD
      simp [sseLoop, sseOutEvents, cursorAfter, hD]
  | cons a t ih =>
      intro hA deadS rest seq hD
      have ha : is_alive a = true := hA a (List.mem_cons_self a t)
      have ht : ∀ s ∈ t, is_alive s = true := fun s hs => hA s (List.mem_cons_of_mem a hs)
      by_cases hr : ((get_output_since a seq).1 != "") = true
      · simp only [List.cons_append, sseLoop, sseOutEvents, cursorAfter, ha, hr, if_true,
          List.append_eq]
        rw [ih ht deadS rest _ hD]
      · rw [Bool.not_eq_true] at hr
        simp only [List.cons_append, sseLoop, sseOutEvents, cursorAfter, ha, hr,
          Bool.false_eq_true, if_false, if_true, List.append_eq]
        exact ih ht deadS rest seq hD

lemma grpcLoop_split : ∀ (alive : List PTYSession), (∀ s ∈ alive, is_alive s = true) →
    ∀ (deadS : PTYSession) (rest : List PTYSession) (seq : Int), is_alive deadS = false →
    grpcLoop ((alive ++ deadS :: rest).map (fun s => (s, false))) seq
      = grpcOutEvents alive seq
        ++ (match deadS.exit_code with
            | some e => [GrpcMsg.exit e]
            | none => []) := by
  intro alive
  induction alive with
  | nil =>
      intro _ deadS rest seq hD
      simp only [List.nil_append, List.map_cons, grpcLoop, grpcOutEvents, hD,
        Bool.not_false, Bool.false_and, Bool.and_true, if_false, List.nil_append]
      cases hx : deadS.exit_code <;> simp [hx]
  | cons a t ih =>
      intro hA deadS rest seq hD
      have ha : is_alive a = true := hA a (List.mem_cons_self a t)
      have ht : ∀ s ∈ t, is_alive s = true := fun s hs => hA s (List.mem_cons_of_mem a hs)
      by_cases hr : ((get_output_since a seq).1 != "") = true
      · simp only [List.cons_append, List.map_cons, grpcLoop, grpcOutEvents, ha, hr,
          Bool.not_false, Bool.and_true, if_true, List.append_eq]
        rw [ih ht deadS rest _ hD]
      · rw [Bool.not_eq_true] at hr
        simp only [List.cons_append, List.map_cons, grpcLoop, grpcOutEvents, ha, hr,
          Bool.not_false, Bool.and_true, Bool.false_eq_true, if_false, if_true, List.append_eq]
        exact ih ht deadS rest seq hD

lemma sseOutEvents_nonempty : ∀ (states : List PTYSession) (seq : Int) (ev : SSEEvent),
    ev ∈ sseOutEvents states seq → ev.output ≠ "" := by
  intro states
  induction states with
  | nil =>
      intro seq ev h
      simp [sseOutEvents] at h
  | cons a t ih =>
      intro seq ev h
      by_cases hr : ((get_output_since a seq).1 != "") = true
      · simp only [sseOutEvents, hr, if_true, List.mem_cons] at h
        rcases h with h | h
        · subst h
          simpa using hr
        · exact ih _ ev h
      · rw [Bool.not_eq_true] at hr
        simp only [sseOutEvents, hr, Bool.false_eq_true, if_false] at h
        exact ih _ ev h

lemma grpcOutEvents_shape : ∀ (states : List PTYSession) (seq : Int) (msg : GrpcMsg),
    msg ∈ grpcOutEvents states seq → ∃ o n, msg = GrpcMsg.output o n ∧ o ≠ "" := by
  intro states
  induction states with
  | nil =>
      intro seq msg h
      simp [grpcOutEvents] at h
  | cons a t ih =>
      intro seq msg h
      by_cases hr : ((get_output_since a seq).1 != "") = true
      · simp only [grpcOutEvents, hr, if_true, List.mem_cons] at h
        rcases h with h | h
        · exact ⟨(get_output_since a seq).1, (get_output_since a seq).2, h, by simpa using hr⟩
        · exact ih _ msg h
      · rw [Bool.not_eq_true] at hr
        simp only [grpcOutEvents, hr, Bool.false_eq_true, if_false] at h
        exact ih _ msg h

/-- C4 (amended): with the session observed alive for finitely many polls
and then observed not alive, both streaming adapters emit one output event
per non-empty read while alive and then close; the SSE endpoint emits
exactly one final terminal event, carrying the session's current
`exit_code` — which, and this is the amendment, may still be `None`, in
which case the gRPC stream emits *no* exit frame at all; the gRPC stream
emits exactly one exit frame precisely when `exit_code` is set at the
moment the liveness check fails. -/
theorem stream_terminal_events (alive : List PTYSession) (deadS : PTYSession)
    (rest : List PTYSession) (seq : Int)
    (hA : ∀ s ∈ alive, is_alive s = true) (hD : is_alive deadS = false) :
    sseLoop (alive ++ deadS :: rest) seq
      = sseOutEvents alive seq
        ++ [{ output := "", seq := cursorAfter alive seq, exit_code := deadS.exit_code }]
    ∧ (∀ ev ∈ sseOutEvents alive seq, ev.output ≠ "")
    ∧ countTerminalSSE (sseLoop (alive ++ deadS :: rest) seq) = 1
    ∧ grpcLoop ((alive ++ deadS :: rest).map (fun s => (s, false))) seq
      = grpcOutEvents alive seq
        ++ (match deadS.exit_code with
            | some e => [GrpcMsg.exit e]
            | none => [])
    ∧ (∀ msg ∈ grpcOutEvents alive seq, ∃ o n, msg = GrpcMsg.output o n ∧ o ≠ "")
    ∧ countExitMsgs (grpcLoop ((alive ++ deadS :: rest).map (fun s => (s, false))) seq)
        = (if deadS.exit_code.isSome then 1 else 0) := by
  have hs := sseLoop_split alive hA deadS rest seq hD
  have hg := grpcLoop_split alive hA deadS rest seq hD
  refine ⟨hs, fun ev h => sseOutEvents_nonempty alive seq ev h, ?_, hg,
    fun msg h => grpcOutEvents_shape alive seq msg h, ?_⟩
  · rw [hs, countTerminalSSE, List.countP_append]
    have h0 : List.countP (fun ev => ev.output == "") (sseOutEvents alive seq) = 0 := by
      rw [List.countP_eq_zero]
      intro ev hev
      have := sseOutEvents_nonempty alive seq ev hev
      simpa using this
    rw [h0]
    simp
  · rw [hg, countExitMsgs, List.countP_append]
    have h0 : List.countP (fun msg => match msg with | GrpcMsg.exit _ => true | _ => false)
        (grpcOutEvents alive seq) = 0 := by
      rw [List.countP_eq_zero]
      intro msg hmsg
      obtain ⟨o, n, hmo, -⟩ := grpcOutEvents_shape alive seq msg hmsg
      subst hmo
      simp
    rw [h0]
    cases hx : deadS.exit_code <;> simp [hx]

/-- The dead-without-exit-code state an adapter can observe: the child
process has died but the pump loop has not yet run its exit block. -/
def sessDeadNoCode : PTYSession := (run sessA [Ev.procDies none]).1

/-- C4 counterexample to the claim as stated: observing a session whose
process has died before the pump loop recorded `exit_code`, the gRPC output
stream ends **without any terminal exit frame** (the code guards the exit
frame with `if session.exit_code is not None`). -/
theorem grpc_stream_no_terminal_event :
    is_alive sessDeadNoCode = false
    ∧ sessDeadNoCode.exit_code = none
    ∧ grpcLoop [(sessDeadNoCode, false)] 0 = [] := by
  refine ⟨by decide, by decide, by decide⟩

/-- A session closed with recorded exit status 7, for the C4 witness. -/
def sessDead7 : PTYSession := (run sessA [Ev.closeEv none (some 7)]).1

/-- C4 witness. -/
theorem stream_terminal_events_witness :
    countTerminalSSE (sseLoop [sessDead7] 0) = 1
    ∧ countExitMsgs (grpcLoop [(sessDead7, false)] 0) = 1 := by
  have h := stream_terminal_events [] sessDead7 [] 0
    (by intro s hs; simp at hs) (by decide)
  refine ⟨h.2.2.1, ?_⟩
  have h2 := h.2.2.2.2.2
  have h3 : (if sessDead7.exit_code.isSome then 1 else 0) = 1 := by decide
  exact h2.trans h3

end PtyCore
